import Mathlib

/-!
# Gardiyan: an HTTP front for an S3-compatible object store

A shallow embedding of `main.go`.  Go strings are Lean strings, handled through
their character lists.  The response writer, the logger and the storage client
are made explicit: a handler returns the response it wrote, the log lines it
printed and the list of `GetObject` calls it issued.

Ambient inputs of the Go program are arguments here:
* `env`      the process environment read by `os.Getenv`;
* `logLevel` the package variable set from the `-log-level` flag;
* `tbl`      the Unicode lower-case table consulted by `unicode.ToLower` for
             runes beyond ASCII (the standard library's `CaseRanges`);
* `fault`    whether, and after how many bytes, `io.Copy` fails.
-/

namespace Gardiyan

/-! ## Package `strings` -/

/-- The Go function `strings.HasPrefix`. -/
def HasPrefix (s p : String) : Bool :=
  p.data.isPrefixOf s.data

/-- The Go function `strings.TrimPrefix`: `s` without the leading `p`, or `s`
itself when it does not start with `p`. -/
def TrimPrefix (s p : String) : String :=
  if HasPrefix s p then ⟨s.data.drop p.data.length⟩ else s

/-- The Go function `strings.Contains`: some tail of `s` starts with `substr`. -/
def Contains (s substr : String) : Bool :=
  s.data.tails.any (fun t => substr.data.isPrefixOf t)

/-- The ASCII branch of `unicode.ToLower`: `A`..`Z` are shifted by `a - A`. -/
def asciiLower (c : Char) : Char :=
  if 'A' ≤ c ∧ c ≤ 'Z' then Char.ofNat (c.toNat + 32) else c

/-- The Go function `unicode.ToLower`: runes up to `MaxASCII` take the ASCII
branch, every other rune is looked up in the case table `tbl`. -/
def toLowerRune (tbl : Char → Char) (c : Char) : Char :=
  if c.toNat ≤ 127 then asciiLower c else tbl c

/-- The Go function `strings.ToLower`, rune by rune. -/
def ToLower (tbl : Char → Char) (s : String) : String :=
  ⟨s.data.map (toLowerRune tbl)⟩

/-! ## Package `path/filepath` -/

/-- The Go function `os.IsPathSeparator` on a Unix system. -/
def isPathSeparator (c : Char) : Bool :=
  decide (c = '/')

/-- The loop of `filepath.Ext`; the argument `i + 1` stands for the loop index
`i`, and `0` for the index having run below zero. -/
def extLoop (path : List Char) : Nat → List Char
  | 0 => []
  | i + 1 =>
    match path.get? i with
    | none => []
    | some c =>
      if isPathSeparator c then []
      else if c = '.' then path.drop i
      else extLoop path i

/-- The Go function `filepath.Ext`. -/
def Ext (path : String) : String :=
  ⟨extLoop path.data path.data.length⟩

/-! ## Environment -/

/-- The process environment: the value of each variable that is set. -/
abbrev Environ := String → Option String

/-- The Go function `os.Getenv`: the empty string for a variable that is unset. -/
def Getenv (env : Environ) (key : String) : String :=
  (env key).getD ""

/-- The Go function `os.Setenv`. -/
def Setenv (env : Environ) (key value : String) : Environ :=
  fun k => if k = key then some value else env k

/-- The Go function `os.Unsetenv`. -/
def Unsetenv (env : Environ) (key : String) : Environ :=
  fun k => if k = key then none else env k

/-- The environment in which no variable is set. -/
def emptyEnviron : Environ :=
  fun _ => none

/-- Source: `getEnvOrDefault` in `main.go`. -/
def getEnvOrDefault (env : Environ) (key defaultValue : String) : String :=
  let value := Getenv env key
  if value ≠ "" then value else defaultValue

/-- Source: `debugLog` in `main.go`; the result is the list of lines printed. -/
def debugLog (logLevel : String) (line : String) : List String :=
  if logLevel = "debug" then ["[DEBUG] " ++ line] else []

/-! ## Content types -/

/-- Source: `getContentType` in `main.go`. -/
def getContentType (tbl : Char → Char) (filename : String) : String :=
  let ext := ToLower tbl (Ext filename)
  if ext = ".html" ∨ ext = ".htm" then "text/html"
  else if ext = ".css" then "text/css"
  else if ext = ".js" then "application/javascript"
  else if ext = ".json" then "application/json"
  else if ext = ".png" then "image/png"
  else if ext = ".jpg" ∨ ext = ".jpeg" then "image/jpeg"
  else if ext = ".gif" then "image/gif"
  else if ext = ".svg" then "image/svg+xml"
  else if ext = ".pdf" then "application/pdf"
  else if ext = ".txt" then "text/plain"
  else if ext = ".xml" then "application/xml"
  else if ext = ".zip" then "application/zip"
  else "application/octet-stream"

/-! ## Storage client, requests and responses -/

/-- The fields of `aws.Config` that `NewGardiyanServer` fills in. -/
structure AwsConfig where
  region : String
  endpoint : Option String
  s3ForcePathStyle : Option Bool
  disableSSL : Option Bool
  deriving DecidableEq, Repr

/-- An error returned by `GetObject`: `code` is `awsErr.Code()` when the error
is an `awserr.Error`, and `text` is `err.Error()`. -/
structure BackendError where
  code : Option String
  text : String
  deriving DecidableEq, Repr

/-- The part of `s3.GetObjectOutput` the handler reads. -/
structure GetObjectOutput where
  body : List UInt8
  contentLength : Option Int
  deriving DecidableEq, Repr

/-- The storage client: its configuration and the behaviour of `GetObject` on a
bucket and a key. -/
structure S3 where
  config : AwsConfig
  getObject : String → String → Except BackendError GetObjectOutput

/-- Source: `GardiyanServer` in `main.go`. -/
structure GardiyanServer where
  s3Client : S3
  bucketName : String
  port : String

/-- The part of `http.Request` the handlers read. -/
structure Request where
  path : String
  remoteAddr : String
  header : List (String × String)
  deriving DecidableEq, Repr

/-- The Go method `Header.Get`: the first value stored under `key`, or the
empty string. -/
def headerGet (h : List (String × String)) (key : String) : String :=
  (h.lookup key).getD ""

/-- The Go method `Header.Set`: the value stored under `key` is replaced. -/
def headerSet (h : List (String × String)) (key value : String) : List (String × String) :=
  h.filter (fun p => p.1 ≠ key) ++ [(key, value)]

/-- A response body: text written by the handler, or object bytes copied from
the store. -/
inductive Body where
  | text (s : String)
  | bytes (b : List UInt8)
  deriving DecidableEq, Repr

/-- What a handler leaves in the response writer: the status code, the headers
the handler set and the body it wrote. -/
structure Response where
  status : Nat
  header : List (String × String)
  body : Body
  deriving DecidableEq, Repr

/-- The call `http.Error(w, msg, code)`: the reply carries `code` and the text
`msg`.  The line end and the content-type headers that the library adds on its
own are not recorded. -/
def httpError (msg : String) (code : Nat) : Response :=
  { status := code, header := [], body := Body.text msg }

/-- The call `io.Copy(w, body)`: the bytes that reached the client and the
error, if the copy broke off. -/
def ioCopy (body : List UInt8) (fault : Option (Nat × String)) : List UInt8 × Option String :=
  match fault with
  | none => (body, none)
  | some (n, e) => (body.take n, some e)

/-- The observable effects of one handler run. -/
structure Outcome where
  response : Response
  logs : List String
  fetched : List (String × String)
  deriving DecidableEq, Repr

/-! ## The server -/

/-- Source: `NewGardiyanServer` in `main.go`, given the behaviour `svc` of the
remote store.  The start-up log line and the fatal exit on a failed session
are not part of the result. -/
def NewGardiyanServer (env : Environ)
    (svc : String → String → Except BackendError GetObjectOutput) : GardiyanServer :=
  let endpoint := getEnvOrDefault env "S3_ENDPOINT" ""
  let region := getEnvOrDefault env "REGION" (getEnvOrDefault env "AWS_REGION" "us-east-1")
  let config : AwsConfig :=
    if endpoint ≠ "" then
      { region := region
        endpoint := some endpoint
        s3ForcePathStyle := some (getEnvOrDefault env "S3_FORCE_PATH_STYLE" "false" == "true")
        disableSSL := some (getEnvOrDefault env "S3_DISABLE_SSL" "false" == "true") }
    else
      { region := region, endpoint := none, s3ForcePathStyle := none, disableSSL := none }
  { s3Client := { config := config, getObject := svc }
    bucketName := getEnvOrDefault env "S3_BUCKET_NAME" ""
    port := getEnvOrDefault env "PORT" "8080" }

/-- The variable `fullS3URL` of `proxyHandler`: the address written to the log. -/
def fullS3URL (env : Environ) (bucketName objectKey : String) : String :=
  let endpoint := getEnvOrDefault env "S3_ENDPOINT" ""
  if endpoint ≠ "" then
    let cleanEndpoint := TrimPrefix endpoint "http://"
    let cleanEndpoint := TrimPrefix cleanEndpoint "https://"
    let protocol := if getEnvOrDefault env "S3_DISABLE_SSL" "false" = "true" then "http" else "https"
    protocol ++ "://" ++ bucketName ++ "." ++ cleanEndpoint ++ "/" ++ objectKey
  else
    let region := getEnvOrDefault env "AWS_REGION" "us-east-1"
    "https://" ++ bucketName ++ ".s3." ++ region ++ ".amazonaws.com/" ++ objectKey

/-- The variable `clientIP` of `proxyHandler`. -/
def clientIP (r : Request) : String :=
  let forwardedIP := headerGet r.header "X-Forwarded-For"
  if forwardedIP ≠ "" then forwardedIP else r.remoteAddr

/-- The text sent with status 403. -/
def accessDeniedMessage : String :=
  "🔐 Access Denied! The guard's security clearance is insufficient to enter this restricted wing of the prison! 👮‍♂️🚫"

/-- The text sent when the object is missing and for unclassified failures. -/
def escapedMessage : String :=
  "🚫 Sorry! That prisoner has escaped from the cell. The warden is still searching the facility! 👮‍♂️"

/-- The text sent when the bucket is missing. -/
def facilityMessage : String :=
  "🏢 Prison facility not found! The entire wing seems to have vanished from the records! 📋❌"

/-- The error branch of `proxyHandler` (`if err != nil`): the reply and the
tag of the log line, by the code of the failure and then by its text. -/
def failureReply (err : BackendError) : Response × String :=
  if err.code = some "AccessDenied" then (httpError accessDeniedMessage 403, "AccessDenied")
  else if err.code = some "NoSuchKey" then (httpError escapedMessage 404, "NoSuchKey")
  else if err.code = some "NoSuchBucket" then (httpError facilityMessage 404, "NoSuchBucket")
  else if Contains err.text "AccessDenied" then (httpError accessDeniedMessage 403, "GenericAccessDenied")
  else (httpError escapedMessage 404, "UnknownError")

/-- The variable `objectKey` of `proxyHandler`: the request path after the
leading separator has been cleaned off (`if strings.HasPrefix(path, "/")`). -/
def objectKey (path : String) : String :=
  if HasPrefix path "/" then TrimPrefix path "/" else path

/-- Source: `proxyHandler` in `main.go`. -/
def proxyHandler (tbl : Char → Char) (env : Environ) (logLevel : String)
    (fault : Option (Nat × String)) (gs : GardiyanServer) (r : Request) : Outcome :=
  let path := objectKey r.path
  if path = "" then
    { response := httpError "File path not specified" 400, logs := [], fetched := [] }
  else
    let bucketName := gs.bucketName
    let objectKey := path
    if bucketName = "" then
      { response := httpError "S3_BUCKET_NAME environment variable not defined" 400
        logs := [], fetched := [] }
    else
      let url := fullS3URL env bucketName objectKey
      let logs := debugLog logLevel ("S3 URL: " ++ url) ++
        debugLog logLevel ("Guard checking storage cell for prisoner: " ++ objectKey ++
          " in facility: " ++ bucketName)
      match gs.s3Client.getObject bucketName objectKey with
      | Except.error err =>
        let logs := logs ++ debugLog logLevel ("S3 file retrieval error: " ++ err.text) ++
          debugLog logLevel ("Failed S3 URL would be: " ++ url)
        let reply := failureReply err
        { response := reply.1
          logs := logs ++ [reply.2 ++ " - " ++ clientIP r ++ " - " ++ url]
          fetched := [(bucketName, objectKey)] }
      | Except.ok result =>
        let header := headerSet [] "Content-Type" (getContentType tbl objectKey)
        let header :=
          match result.contentLength with
          | some n => headerSet header "Content-Length" (toString n)
          | none => header
        let copied := ioCopy result.body fault
        match copied.2 with
        | some e =>
          { response := { status := 200, header := header, body := Body.bytes copied.1 }
            logs := logs ++ ["Response write error: " ++ e]
            fetched := [(bucketName, objectKey)] }
        | none =>
          { response := { status := 200, header := header, body := Body.bytes copied.1 }
            logs := logs ++ ["Success - " ++ clientIP r ++ " - " ++ url]
            fetched := [(bucketName, objectKey)] }

/-- Source: `healthCheck` in `main.go`. -/
def healthCheck (_gs : GardiyanServer) (_r : Request) : Response :=
  { status := 200, header := []
    body := Body.text "🔒 Gardiyan is on duty and the prison is secure! 👮‍♂️" }

/-! ## Specification-side definitions -/

/-- The table of section 4.2 of the specification: extension and MIME type. -/
def specContentTypes : List (String × String) :=
  [(".html", "text/html"), (".htm", "text/html"), (".css", "text/css"),
   (".js", "application/javascript"), (".json", "application/json"),
   (".png", "image/png"), (".jpg", "image/jpeg"), (".jpeg", "image/jpeg"),
   (".gif", "image/gif"), (".svg", "image/svg+xml"), (".pdf", "application/pdf"),
   (".txt", "text/plain"), (".xml", "application/xml"), (".zip", "application/zip")]

/-- The loop of `filepath.Ext` read on the reversed path: the characters still
to visit, last one first, and the suffix already passed. -/
def extScan : List Char → List Char → List Char
  | [], _ => []
  | c :: rest, suf =>
    if c = '/' then []
    else if c = '.' then c :: suf
    else extScan rest (c :: suf)

/-! ## Fixtures of the end-to-end scenarios -/

/-- A store holding the single object `images/logo.png` of 1234 bytes in the
bucket `assets`; any other key of that bucket is reported as `NoSuchKey`, any
other bucket as `NoSuchBucket`. -/
def assetsStore (bucket key : String) : Except BackendError GetObjectOutput :=
  if bucket = "assets" then
    if key = "images/logo.png" then
      Except.ok { body := List.replicate 1234 42, contentLength := some 1234 }
    else
      Except.error { code := some "NoSuchKey"
                     text := "NoSuchKey: The specified key does not exist." }
  else
    Except.error { code := some "NoSuchBucket"
                   text := "NoSuchBucket: The specified bucket does not exist" }

/-- A store that answers every call with the given error. -/
def failingStore (err : BackendError) (_bucket _key : String) :
    Except BackendError GetObjectOutput :=
  Except.error err

/-- The server of the scenario: bucket `assets`, no variable set, so that the
client talks to AWS in `us-east-1`. -/
def assetsServer : GardiyanServer :=
  NewGardiyanServer (Setenv emptyEnviron "S3_BUCKET_NAME" "assets") assetsStore

/-- A request with no headers from the peer `192.0.2.7:40000`. -/
def plainRequest (path : String) : Request :=
  { path := path, remoteAddr := "192.0.2.7:40000", header := [] }

/-! ## Strings: basic facts -/

theorem data_slash : "/".data = ['/'] := rfl

theorem objectKey_mk_cons (k : List Char) : objectKey ⟨'/' :: k⟩ = ⟨k⟩ := by
  simp [objectKey, HasPrefix, TrimPrefix, data_slash]

theorem objectKey_of_not_slash (p : String) (h : p.data.head? ≠ some '/') :
    objectKey p = p := by
  obtain ⟨l⟩ := p
  cases l with
  | nil => simp [objectKey, HasPrefix, TrimPrefix, data_slash]
  | cons c t =>
    have hc : c ≠ '/' := by simpa using h
    have hc2 : ¬ '/' = c := fun e => hc e.symm
    simp [objectKey, HasPrefix, TrimPrefix, data_slash, hc2]

theorem objectKey_eq_empty_iff (p : String) :
    objectKey p = "" ↔ p = "" ∨ p = "/" := by
  obtain ⟨l⟩ := p
  cases l with
  | nil => simp [objectKey, HasPrefix, TrimPrefix, data_slash]
  | cons c t =>
    by_cases hc : c = '/'
    · subst hc
      rw [objectKey_mk_cons]
      constructor
      · intro h
        right
        have : t = [] := by simpa [String.ext_iff] using h
        subst this
        rfl
      · rintro (h | h)
        · simp [String.ext_iff] at h
        · have : t = [] := by simpa [String.ext_iff, data_slash] using h
          subst this
          rfl
    · rw [objectKey_of_not_slash _ (by simpa using hc)]
      constructor
      · intro h; left; exact h
      · rintro (h | h)
        · exact h
        · exfalso
          apply hc
          have := congrArg String.data h
          simp [data_slash] at this
          exact this.1

/-! ## The branches of `proxyHandler` -/

theorem proxyHandler_of_empty_key (tbl : Char → Char) (env : Environ) (lvl : String)
    (fault : Option (Nat × String)) (gs : GardiyanServer) (r : Request)
    (hk : objectKey r.path = "") :
    proxyHandler tbl env lvl fault gs r =
      { response := httpError "File path not specified" 400, logs := [], fetched := [] } := by
  simp [proxyHandler, hk]

theorem proxyHandler_of_empty_bucket (tbl : Char → Char) (env : Environ) (lvl : String)
    (fault : Option (Nat × String)) (gs : GardiyanServer) (r : Request)
    (hk : objectKey r.path ≠ "") (hb : gs.bucketName = "") :
    proxyHandler tbl env lvl fault gs r =
      { response := httpError "S3_BUCKET_NAME environment variable not defined" 400
        logs := [], fetched := [] } := by
  simp [proxyHandler, hk, hb]

theorem proxyHandler_of_error (tbl : Char → Char) (env : Environ) (lvl : String)
    (fault : Option (Nat × String)) (gs : GardiyanServer) (r : Request) (err : BackendError)
    (hk : objectKey r.path ≠ "") (hb : gs.bucketName ≠ "")
    (hf : gs.s3Client.getObject gs.bucketName (objectKey r.path) = Except.error err) :
    proxyHandler tbl env lvl fault gs r =
      { response := (failureReply err).1
        logs := debugLog lvl ("S3 URL: " ++ fullS3URL env gs.bucketName (objectKey r.path)) ++
          debugLog lvl ("Guard checking storage cell for prisoner: " ++ objectKey r.path ++
            " in facility: " ++ gs.bucketName) ++
          debugLog lvl ("S3 file retrieval error: " ++ err.text) ++
          debugLog lvl ("Failed S3 URL would be: " ++
            fullS3URL env gs.bucketName (objectKey r.path)) ++
          [(failureReply err).2 ++ " - " ++ clientIP r ++ " - " ++
            fullS3URL env gs.bucketName (objectKey r.path)]
        fetched := [(gs.bucketName, objectKey r.path)] } := by
  simp [proxyHandler, hk, hb, hf]

theorem proxyHandler_of_ok (tbl : Char → Char) (env : Environ) (lvl : String)
    (fault : Option (Nat × String)) (gs : GardiyanServer) (r : Request)
    (result : GetObjectOutput)
    (hk : objectKey r.path ≠ "") (hb : gs.bucketName ≠ "")
    (hf : gs.s3Client.getObject gs.bucketName (objectKey r.path) = Except.ok result) :
    proxyHandler tbl env lvl fault gs r =
      { response :=
          { status := 200
            header :=
              match result.contentLength with
              | some n => headerSet (headerSet [] "Content-Type"
                  (getContentType tbl (objectKey r.path))) "Content-Length" (toString n)
              | none => headerSet [] "Content-Type" (getContentType tbl (objectKey r.path))
            body := Body.bytes (ioCopy result.body fault).1 }
        logs := debugLog lvl ("S3 URL: " ++ fullS3URL env gs.bucketName (objectKey r.path)) ++
          debugLog lvl ("Guard checking storage cell for prisoner: " ++ objectKey r.path ++
            " in facility: " ++ gs.bucketName) ++
          [match (ioCopy result.body fault).2 with
           | some e => "Response write error: " ++ e
           | none => "Success - " ++ clientIP r ++ " - " ++
               fullS3URL env gs.bucketName (objectKey r.path)]
        fetched := [(gs.bucketName, objectKey r.path)] } := by
  simp only [proxyHandler, hk, hb, hf, if_false]
  cases h : (ioCopy result.body fault).2 <;> simp

theorem failureReply_status (err : BackendError) :
    (failureReply err).1.status = 403 ∨ (failureReply err).1.status = 404 := by
  unfold failureReply
  split_ifs <;> simp [httpError]

theorem objectKey_ne_empty (p : String) (h1 : p ≠ "") (h2 : p ≠ "/") : objectKey p ≠ "" := by
  intro h
  rcases (objectKey_eq_empty_iff p).1 h with h | h
  · exact h1 h
  · exact h2 h

/-! ## The object key and the bad-request replies -/

/-- C2: the key handed to `GetObject` is the request path without its first
`/` (the path itself when it has none): the characters after that first
separator are kept as they are, the key is empty only for the paths `""` and
`"/"`, and a request that reaches the store issues exactly one call, on the
configured bucket and that key. -/
theorem proxyHandler_fetches_objectKey (tbl : Char → Char) (env : Environ) (lvl : String)
    (fault : Option (Nat × String)) (gs : GardiyanServer) (r : Request) :
    (∀ k : List Char, objectKey ⟨'/' :: k⟩ = ⟨k⟩) ∧
    (∀ p : String, p.data.head? ≠ some '/' → objectKey p = p) ∧
    (∀ p : String, p ≠ "" → p ≠ "/" → objectKey p ≠ "") ∧
    objectKey "//a" = "/a" ∧
    objectKey "/images/logo.png" = "images/logo.png" ∧
    ((proxyHandler tbl env lvl fault gs r).fetched = [] ∨
      (proxyHandler tbl env lvl fault gs r).fetched = [(gs.bucketName, objectKey r.path)]) ∧
    (r.path ≠ "" → r.path ≠ "/" → gs.bucketName ≠ "" →
      (proxyHandler tbl env lvl fault gs r).fetched = [(gs.bucketName, objectKey r.path)]) := by
  refine ⟨objectKey_mk_cons, objectKey_of_not_slash, objectKey_ne_empty, by decide, by decide,
    ?_, ?_⟩
  · by_cases hk : objectKey r.path = ""
    · left; rw [proxyHandler_of_empty_key _ _ _ _ _ _ hk]
    · by_cases hb : gs.bucketName = ""
      · left; rw [proxyHandler_of_empty_bucket _ _ _ _ _ _ hk hb]
      · right
        cases hf : gs.s3Client.getObject gs.bucketName (objectKey r.path) with
        | error err => rw [proxyHandler_of_error _ _ _ _ _ _ err hk hb hf]
        | ok res => rw [proxyHandler_of_ok _ _ _ _ _ _ res hk hb hf]
  · intro h1 h2 hb
    have hk := objectKey_ne_empty _ h1 h2
    cases hf : gs.s3Client.getObject gs.bucketName (objectKey r.path) with
    | error err => rw [proxyHandler_of_error _ _ _ _ _ _ err hk hb hf]
    | ok res => rw [proxyHandler_of_ok _ _ _ _ _ _ res hk hb hf]

/-- C2, at the request `GET //deep/logo.png` on the bucket `assets`: the store
is asked for the key `/deep/logo.png`. -/
theorem proxyHandler_fetches_objectKey_witness :
    (proxyHandler id emptyEnviron "info" none assetsServer (plainRequest "//deep/logo.png")).fetched
      = [("assets", "/deep/logo.png")] :=
  (proxyHandler_fetches_objectKey id emptyEnviron "info" none assetsServer
    (plainRequest "//deep/logo.png")).2.2.2.2.2.2 (by decide) (by decide) (by decide)

/-- C3: the status is 400 exactly when the path is `""` or `"/"` or the bucket
name is empty; with an empty key the text is `File path not specified`,
whatever the bucket; and a 400 reply comes with no call to the store. -/
theorem proxyHandler_status_400_iff (tbl : Char → Char) (env : Environ) (lvl : String)
    (fault : Option (Nat × String)) (gs : GardiyanServer) (r : Request) :
    ((proxyHandler tbl env lvl fault gs r).response.status = 400 ↔
      (r.path = "" ∨ r.path = "/" ∨ gs.bucketName = "")) ∧
    (r.path = "" ∨ r.path = "/" →
      (proxyHandler tbl env lvl fault gs r).response.body = Body.text "File path not specified") ∧
    ((proxyHandler tbl env lvl fault gs r).response.status = 400 →
      (proxyHandler tbl env lvl fault gs r).fetched = []) := by
  by_cases hk : objectKey r.path = ""
  · have hp := (objectKey_eq_empty_iff r.path).1 hk
    rw [proxyHandler_of_empty_key _ _ _ _ _ _ hk]
    refine ⟨⟨fun _ => ?_, fun _ => rfl⟩, fun _ => rfl, fun _ => rfl⟩
    rcases hp with h | h
    · exact Or.inl h
    · exact Or.inr (Or.inl h)
  · have hp : ¬ (r.path = "" ∨ r.path = "/") := fun h => hk ((objectKey_eq_empty_iff r.path).2 h)
    by_cases hb : gs.bucketName = ""
    · rw [proxyHandler_of_empty_bucket _ _ _ _ _ _ hk hb]
      exact ⟨⟨fun _ => Or.inr (Or.inr hb), fun _ => rfl⟩, fun h => absurd h hp, fun _ => rfl⟩
    · have hne : ¬ (r.path = "" ∨ r.path = "/" ∨ gs.bucketName = "") := by
        rintro (h | h | h)
        · exact hp (Or.inl h)
        · exact hp (Or.inr h)
        · exact hb h
      cases hf : gs.s3Client.getObject gs.bucketName (objectKey r.path) with
      | error err =>
        rw [proxyHandler_of_error _ _ _ _ _ _ err hk hb hf]
        have hs : (failureReply err).1.status ≠ 400 := by
          rcases failureReply_status err with h | h <;> rw [h] <;> decide
        exact ⟨⟨fun h => absurd h hs, fun h => absurd h hne⟩, fun h => absurd h hp,
          fun h => absurd h hs⟩
      | ok res =>
        rw [proxyHandler_of_ok _ _ _ _ _ _ res hk hb hf]
        have hs : (200 : Nat) ≠ 400 := by decide
        exact ⟨⟨fun h => absurd h hs, fun h => absurd h hne⟩, fun h => absurd h hp,
          fun h => absurd h hs⟩

/-- C3, at the request `GET /` on a server without a bucket name: the reply is
the text of the empty-key check. -/
theorem proxyHandler_status_400_iff_witness :
    (proxyHandler id emptyEnviron "info" none (NewGardiyanServer emptyEnviron assetsStore)
      (plainRequest "/")).response.body = Body.text "File path not specified" :=
  (proxyHandler_status_400_iff id emptyEnviron "info" none
    (NewGardiyanServer emptyEnviron assetsStore) (plainRequest "/")).2.1 (Or.inr rfl)

/-! ## Failed fetches -/

/-- C1: when the fetch fails, the reply is fixed by the kind of failure: code
`AccessDenied` gives 403 and the access-denied text, `NoSuchKey` gives 404 and
the escaped-prisoner text, `NoSuchBucket` gives 404 and the facility text, and
any other failure whose text does not contain `AccessDenied` gives 404 and the
escaped-prisoner text.  The body is always one of these three texts, and two
failures of the same kind get the same reply, on any server and request. -/
theorem proxyHandler_failure_reply (tbl : Char → Char) (env : Environ) (lvl : String)
    (fault : Option (Nat × String)) (gs : GardiyanServer) (r : Request) (err : BackendError)
    (hp : r.path ≠ "" ∧ r.path ≠ "/") (hb : gs.bucketName ≠ "")
    (hf : gs.s3Client.getObject gs.bucketName (objectKey r.path) = Except.error err) :
    (err.code = some "AccessDenied" →
      (proxyHandler tbl env lvl fault gs r).response =
        { status := 403, header := [], body := Body.text accessDeniedMessage }) ∧
    (err.code = some "NoSuchKey" →
      (proxyHandler tbl env lvl fault gs r).response =
        { status := 404, header := [], body := Body.text escapedMessage }) ∧
    (err.code = some "NoSuchBucket" →
      (proxyHandler tbl env lvl fault gs r).response =
        { status := 404, header := [], body := Body.text facilityMessage }) ∧
    (err.code ≠ some "AccessDenied" → err.code ≠ some "NoSuchKey" →
      err.code ≠ some "NoSuchBucket" → Contains err.text "AccessDenied" = false →
      (proxyHandler tbl env lvl fault gs r).response =
        { status := 404, header := [], body := Body.text escapedMessage }) ∧
    ((proxyHandler tbl env lvl fault gs r).response.body = Body.text accessDeniedMessage ∨
      (proxyHandler tbl env lvl fault gs r).response.body = Body.text escapedMessage ∨
      (proxyHandler tbl env lvl fault gs r).response.body = Body.text facilityMessage) ∧
    (∀ (tbl2 : Char → Char) (env2 : Environ) (lvl2 : String) (fault2 : Option (Nat × String))
        (gs2 : GardiyanServer) (r2 : Request) (err2 : BackendError),
      r2.path ≠ "" → r2.path ≠ "/" → gs2.bucketName ≠ "" →
      gs2.s3Client.getObject gs2.bucketName (objectKey r2.path) = Except.error err2 →
      err2.code = err.code →
      Contains err2.text "AccessDenied" = Contains err.text "AccessDenied" →
      (proxyHandler tbl2 env2 lvl2 fault2 gs2 r2).response =
        (proxyHandler tbl env lvl fault gs r).response) := by
  have hk := objectKey_ne_empty _ hp.1 hp.2
  rw [proxyHandler_of_error _ _ _ _ _ _ err hk hb hf]
  refine ⟨?_, ?_, ?_, ?_, ?_, ?_⟩
  · intro h
    simp [failureReply, h, httpError]
  · intro h
    simp [failureReply, h, httpError]
  · intro h
    simp [failureReply, h, httpError]
  · intro h1 h2 h3 h4
    simp [failureReply, h1, h2, h3, h4, httpError]
  · show (failureReply err).1.body = _ ∨ (failureReply err).1.body = _ ∨
      (failureReply err).1.body = _
    unfold failureReply
    split_ifs <;> simp [httpError]
  · intro tbl2 env2 lvl2 fault2 gs2 r2 err2 h1 h2 h3 h4 h5 h6
    rw [proxyHandler_of_error _ _ _ _ _ _ err2 (objectKey_ne_empty _ h1 h2) h3 h4]
    show (failureReply err2).1 = (failureReply err).1
    simp only [failureReply, h5, h6]

/-- C1, at `GET /missing.txt` on the bucket `assets`, whose store reports
`NoSuchKey`: the reply is 404 with the escaped-prisoner text. -/
theorem proxyHandler_failure_reply_witness :
    (proxyHandler id emptyEnviron "info" none assetsServer (plainRequest "/missing.txt")).response =
      { status := 404, header := [], body := Body.text escapedMessage } :=
  (proxyHandler_failure_reply id emptyEnviron "info" none assetsServer
    (plainRequest "/missing.txt")
    { code := some "NoSuchKey", text := "NoSuchKey: The specified key does not exist." }
    (by decide) (by decide) rfl).2.1 rfl

/-- C10, as amended: the code of the failure is looked at first, its text only
afterwards.  Code `AccessDenied` gives 403; code `NoSuchKey` or `NoSuchBucket`
gives 404 whatever the text says; a failure with none of the three codes gives
403 when its text contains `AccessDenied`, and 404 otherwise. -/
theorem proxyHandler_failure_order (tbl : Char → Char) (env : Environ) (lvl : String)
    (fault : Option (Nat × String)) (gs : GardiyanServer) (r : Request) (err : BackendError)
    (hp : r.path ≠ "" ∧ r.path ≠ "/") (hb : gs.bucketName ≠ "")
    (hf : gs.s3Client.getObject gs.bucketName (objectKey r.path) = Except.error err) :
    (err.code = some "AccessDenied" →
      (proxyHandler tbl env lvl fault gs r).response.status = 403 ∧
      (proxyHandler tbl env lvl fault gs r).response.body = Body.text accessDeniedMessage) ∧
    (err.code = some "NoSuchKey" ∨ err.code = some "NoSuchBucket" →
      (proxyHandler tbl env lvl fault gs r).response.status = 404) ∧
    (err.code ≠ some "AccessDenied" → err.code ≠ some "NoSuchKey" →
      err.code ≠ some "NoSuchBucket" → Contains err.text "AccessDenied" = true →
      (proxyHandler tbl env lvl fault gs r).response.status = 403 ∧
      (proxyHandler tbl env lvl fault gs r).response.body = Body.text accessDeniedMessage) ∧
    (err.code ≠ some "AccessDenied" → err.code ≠ some "NoSuchKey" →
      err.code ≠ some "NoSuchBucket" → Contains err.text "AccessDenied" = false →
      (proxyHandler tbl env lvl fault gs r).response.status = 404) := by
  have hk := objectKey_ne_empty _ hp.1 hp.2
  rw [proxyHandler_of_error _ _ _ _ _ _ err hk hb hf]
  refine ⟨?_, ?_, ?_, ?_⟩
  · intro h
    simp [failureReply, h, httpError]
  · rintro (h | h) <;> simp [failureReply, h, httpError]
  · intro h1 h2 h3 h4
    simp [failureReply, h1, h2, h3, h4, httpError]
  · intro h1 h2 h3 h4
    simp [failureReply, h1, h2, h3, h4, httpError]

/-- C10, as amended, at a failure that is not an AWS error and whose text
mentions `AccessDenied`: the reply is 403. -/
theorem proxyHandler_failure_order_witness :
    (proxyHandler id emptyEnviron "info" none
      { s3Client := { config := assetsServer.s3Client.config
                      getObject := failingStore { code := none, text := "proxy: AccessDenied" } }
        bucketName := "assets", port := "8080" }
      (plainRequest "/a.txt")).response.status = 403 :=
  ((proxyHandler_failure_order id emptyEnviron "info" none
    { s3Client := { config := assetsServer.s3Client.config
                    getObject := failingStore { code := none, text := "proxy: AccessDenied" } }
      bucketName := "assets", port := "8080" }
    (plainRequest "/a.txt") { code := none, text := "proxy: AccessDenied" }
    (by decide) (by decide) rfl).2.2.1 (by decide) (by decide) (by decide) (by decide)).1

/-- C10 as stated fails: a failure with code `NoSuchKey` whose text contains
`AccessDenied` is answered with 404 and the escaped-prisoner text, not 403. -/
theorem proxyHandler_access_denied_text_not_first :
    Contains "NoSuchKey: no object AccessDenied.txt" "AccessDenied" = true ∧
    (proxyHandler id emptyEnviron "info" none
      { s3Client := { config := assetsServer.s3Client.config
                      getObject := failingStore
                        { code := some "NoSuchKey"
                          text := "NoSuchKey: no object AccessDenied.txt" } }
        bucketName := "assets", port := "8080" }
      (plainRequest "/AccessDenied.txt")).response =
      { status := 404, header := [], body := Body.text escapedMessage } := by
  constructor
  · decide
  · rfl

/-! ## Successful fetches -/

theorem headerGet_contentType (v : String) :
    headerGet (headerSet [] "Content-Type" v) "Content-Type" = v := by
  simp [headerGet, headerSet, List.lookup]

theorem headerGet_contentType_after (v w : String) :
    headerGet (headerSet (headerSet [] "Content-Type" v) "Content-Length" w) "Content-Type"
      = v := by
  have h : ("Content-Type" : String) ≠ "Content-Length" := by decide
  simp [headerGet, headerSet, List.lookup, h]

theorem headerGet_contentLength (v w : String) :
    headerGet (headerSet (headerSet [] "Content-Type" v) "Content-Length" w) "Content-Length"
      = w := by
  have h : ("Content-Type" : String) ≠ "Content-Length" := by decide
  have h2 : (("Content-Length" : String) == "Content-Type") = false := by decide
  simp [headerGet, headerSet, List.lookup, h, h2]

theorem lookup_contentLength_absent (v : String) :
    (headerSet [] "Content-Type" v).lookup "Content-Length" = none := by
  have h2 : (("Content-Length" : String) == "Content-Type") = false := by decide
  simp [headerSet, List.lookup, h2]

/-- C4, as amended: when the fetch succeeds, the status is 200, `Content-Type`
is `getContentType` of the key, `Content-Length` is the decimal form of the
declared length when there is one and is not set otherwise, and the body is
the whole object when the copy runs to its end; when the copy breaks off
after `n` bytes the body is the first `n` bytes of the object. -/
theorem proxyHandler_success_reply (tbl : Char → Char) (env : Environ) (lvl : String)
    (fault : Option (Nat × String)) (gs : GardiyanServer) (r : Request)
    (result : GetObjectOutput)
    (hp : r.path ≠ "" ∧ r.path ≠ "/") (hb : gs.bucketName ≠ "")
    (hf : gs.s3Client.getObject gs.bucketName (objectKey r.path) = Except.ok result) :
    (proxyHandler tbl env lvl fault gs r).response.status = 200 ∧
    headerGet (proxyHandler tbl env lvl fault gs r).response.header "Content-Type" =
      getContentType tbl (objectKey r.path) ∧
    (∀ n : Int, result.contentLength = some n →
      headerGet (proxyHandler tbl env lvl fault gs r).response.header "Content-Length" =
        toString n) ∧
    (result.contentLength = none →
      (proxyHandler tbl env lvl fault gs r).response.header.lookup "Content-Length" = none) ∧
    (fault = none →
      (proxyHandler tbl env lvl fault gs r).response.body = Body.bytes result.body) ∧
    (∀ (n : Nat) (e : String), fault = some (n, e) →
      (proxyHandler tbl env lvl fault gs r).response.body = Body.bytes (result.body.take n)) := by
  have hk := objectKey_ne_empty _ hp.1 hp.2
  rw [proxyHandler_of_ok _ _ _ _ _ _ result hk hb hf]
  refine ⟨rfl, ?_, ?_, ?_, ?_, ?_⟩
  · cases hc : result.contentLength with
    | none => exact headerGet_contentType _
    | some n => exact headerGet_contentType_after _ _
  · intro n hn
    simp only [hn]
    exact headerGet_contentLength _ _
  · intro hn
    simp only [hn]
    exact lookup_contentLength_absent _
  · intro h
    subst h
    rfl
  · intro n e h
    subst h
    rfl

/-- C4, as amended, on the scenario of the specification: bucket `assets`,
`GET /images/logo.png`, an object of declared length 1234, a copy that runs
to its end. -/
theorem proxyHandler_success_reply_witness :
    (proxyHandler id emptyEnviron "info" none assetsServer
      (plainRequest "/images/logo.png")).response.status = 200 ∧
    headerGet (proxyHandler id emptyEnviron "info" none assetsServer
      (plainRequest "/images/logo.png")).response.header "Content-Type" = "image/png" ∧
    headerGet (proxyHandler id emptyEnviron "info" none assetsServer
      (plainRequest "/images/logo.png")).response.header "Content-Length" = "1234" ∧
    (proxyHandler id emptyEnviron "info" none assetsServer
      (plainRequest "/images/logo.png")).response.body = Body.bytes (List.replicate 1234 42) :=
  have h := proxyHandler_success_reply id emptyEnviron "info" none assetsServer
    (plainRequest "/images/logo.png")
    { body := List.replicate 1234 42, contentLength := some 1234 }
    (by decide) (by decide) rfl
  ⟨h.1, h.2.1.trans (by decide), (h.2.2.1 1234 rfl).trans (by decide), h.2.2.2.2.1 rfl⟩

/-- C4 as stated fails: the fetch of `images/logo.png` succeeds with 1234
bytes, the copy breaks off after 100 of them, and the reply has status 200,
`Content-Length: 1234` and a body of 100 bytes, which is not the object. -/
theorem proxyHandler_truncated_body :
    assetsServer.s3Client.getObject assetsServer.bucketName (objectKey "/images/logo.png") =
      Except.ok { body := List.replicate 1234 42, contentLength := some 1234 } ∧
    (proxyHandler id emptyEnviron "info" (some (100, "broken pipe")) assetsServer
      (plainRequest "/images/logo.png")).response.status = 200 ∧
    headerGet (proxyHandler id emptyEnviron "info" (some (100, "broken pipe")) assetsServer
      (plainRequest "/images/logo.png")).response.header "Content-Length" = "1234" ∧
    (proxyHandler id emptyEnviron "info" (some (100, "broken pipe")) assetsServer
      (plainRequest "/images/logo.png")).response.body = Body.bytes (List.replicate 100 42) ∧
    (proxyHandler id emptyEnviron "info" (some (100, "broken pipe")) assetsServer
      (plainRequest "/images/logo.png")).response.body ≠ Body.bytes (List.replicate 1234 42) := by
  refine ⟨rfl, by decide, by decide, by decide, by decide⟩

/-! ## Health -/

/-- C6, on the code: `healthCheck` answers 200 on every server and request,
and its body is the English on-duty text, which is not `Gardiyan çalışıyor`. -/
theorem healthCheck_reply (gs : GardiyanServer) (r : Request) :
    (healthCheck gs r).status = 200 ∧
    (healthCheck gs r).body =
      Body.text "🔒 Gardiyan is on duty and the prison is secure! 👮‍♂️" ∧
    (healthCheck gs r).body ≠ Body.text "Gardiyan çalışıyor" := by
  refine ⟨rfl, rfl, ?_⟩
  show Body.text _ ≠ Body.text _
  decide

/-! ## Environment lookups -/

/-- C7: `getEnvOrDefault` gives the value of a variable set to a non-empty
string and the default for a variable that is unset or set to the empty
string; with `TEST_VAR=test_value` the result is `test_value`, and after
unsetting it the result is the default. -/
theorem getEnvOrDefault_spec (env : Environ) (k d : String) :
    (∀ v : String, env k = some v → v ≠ "" → getEnvOrDefault env k d = v) ∧
    (env k = none → getEnvOrDefault env k d = d) ∧
    (env k = some "" → getEnvOrDefault env k d = d) ∧
    getEnvOrDefault (Setenv env "TEST_VAR" "test_value") "TEST_VAR" "default" = "test_value" ∧
    getEnvOrDefault (Unsetenv (Setenv env "TEST_VAR" "test_value") "TEST_VAR") "TEST_VAR"
      "default" = "default" := by
  refine ⟨?_, ?_, ?_, ?_, ?_⟩
  · intro v hv hne
    simp [getEnvOrDefault, Getenv, hv, hne]
  · intro hv
    simp [getEnvOrDefault, Getenv, hv]
  · intro hv
    simp [getEnvOrDefault, Getenv, hv]
  · have h : ("test_value" : String) ≠ "" := by decide
    simp [getEnvOrDefault, Getenv, Setenv, h]
  · simp [getEnvOrDefault, Getenv, Unsetenv]

/-- C7, with `PORT=9090` set: the lookup of `PORT` with default `8080` gives
`9090`. -/
theorem getEnvOrDefault_spec_witness :
    getEnvOrDefault (Setenv emptyEnviron "PORT" "9090") "PORT" "8080" = "9090" :=
  (getEnvOrDefault_spec (Setenv emptyEnviron "PORT" "9090") "PORT" "8080").1 "9090"
    rfl (by decide)

/-! ## Log lines -/

theorem data_debug : "[DEBUG] ".data = ['[', 'D', 'E', 'B', 'U', 'G', ']', ' '] := rfl

theorem hasPrefix_append_self (p x : String) : HasPrefix (p ++ x) p = true := by
  simp [HasPrefix, String.data_append]

theorem hasPrefix_debug_of_head (s : String) (h : s.data.head? ≠ some '[') :
    HasPrefix s "[DEBUG] " = false := by
  obtain ⟨l⟩ := s
  cases l with
  | nil => simp [HasPrefix, data_debug]
  | cons c t =>
    have hc : ¬ '[' = c := fun e => h (by subst e; rfl)
    have hb : ('[' == c) = false := by simpa using hc
    simp [HasPrefix, data_debug, List.isPrefixOf, hb]

theorem debugLog_lines (lvl line : String) :
    ∀ l ∈ debugLog lvl line, HasPrefix l "[DEBUG] " = true := by
  intro l hl
  unfold debugLog at hl
  split_ifs at hl
  · simp only [List.mem_singleton] at hl
    subst hl
    exact hasPrefix_append_self _ _
  · simp at hl

theorem debugLog_of_not_debug (lvl line : String) (h : lvl ≠ "debug") :
    debugLog lvl line = [] := by
  simp [debugLog, h]

theorem failureReply_tag (err : BackendError) :
    (failureReply err).2 ∈
      ["AccessDenied", "NoSuchKey", "NoSuchBucket", "GenericAccessDenied", "UnknownError"] := by
  unfold failureReply
  split_ifs <;> simp

theorem tagged_line_not_debug (tag a b c d : String)
    (h : tag ∈ ["AccessDenied", "NoSuchKey", "NoSuchBucket", "GenericAccessDenied",
      "UnknownError"]) :
    HasPrefix (tag ++ a ++ b ++ c ++ d) "[DEBUG] " = false := by
  apply hasPrefix_debug_of_head
  simp only [List.mem_cons, List.mem_singleton, List.not_mem_nil, or_false] at h
  rcases h with h | h | h | h | h <;> subst h <;>
    simp [String.data_append, List.head?_append]

theorem success_line_not_debug (b c d : String) :
    HasPrefix ("Success - " ++ b ++ c ++ d) "[DEBUG] " = false := by
  apply hasPrefix_debug_of_head
  simp [String.data_append, List.head?_append]

/-- C9, as amended: a request that reaches the store and ends in a fetch
failure, or in a copy that ran to its end, prints exactly one line
`<tag> - <client> - <url>` besides the lines starting with `[DEBUG] `, which
appear only at log level `debug`; the tag is one of `AccessDenied`,
`NoSuchKey`, `NoSuchBucket`, `GenericAccessDenied`, `UnknownError` on failure
and `Success` otherwise, the client is the `X-Forwarded-For` value when it is
non-empty and the peer address otherwise, and the url is `fullS3URL`.  A 400
reply prints nothing, and a copy that breaks off prints the single line
`Response write error: <error>` instead. -/
theorem proxyHandler_access_log (tbl : Char → Char) (env : Environ) (lvl : String)
    (fault : Option (Nat × String)) (gs : GardiyanServer) (r : Request) :
    (∀ err : BackendError, r.path ≠ "" → r.path ≠ "/" → gs.bucketName ≠ "" →
      gs.s3Client.getObject gs.bucketName (objectKey r.path) = Except.error err →
      ∃ (dbg : List String) (tag : String),
        (proxyHandler tbl env lvl fault gs r).logs =
          dbg ++ [tag ++ " - " ++ clientIP r ++ " - " ++
            fullS3URL env gs.bucketName (objectKey r.path)] ∧
        tag ∈ ["AccessDenied", "NoSuchKey", "NoSuchBucket", "GenericAccessDenied",
          "UnknownError"] ∧
        (∀ l ∈ dbg, HasPrefix l "[DEBUG] " = true) ∧
        (lvl ≠ "debug" → dbg = []) ∧
        HasPrefix (tag ++ " - " ++ clientIP r ++ " - " ++
          fullS3URL env gs.bucketName (objectKey r.path)) "[DEBUG] " = false) ∧
    (∀ res : GetObjectOutput, r.path ≠ "" → r.path ≠ "/" → gs.bucketName ≠ "" →
      gs.s3Client.getObject gs.bucketName (objectKey r.path) = Except.ok res →
      fault = none →
      ∃ dbg : List String,
        (proxyHandler tbl env lvl fault gs r).logs =
          dbg ++ ["Success - " ++ clientIP r ++ " - " ++
            fullS3URL env gs.bucketName (objectKey r.path)] ∧
        (∀ l ∈ dbg, HasPrefix l "[DEBUG] " = true) ∧
        (lvl ≠ "debug" → dbg = []) ∧
        HasPrefix ("Success - " ++ clientIP r ++ " - " ++
          fullS3URL env gs.bucketName (objectKey r.path)) "[DEBUG] " = false) ∧
    (∀ (res : GetObjectOutput) (n : Nat) (e : String),
      r.path ≠ "" → r.path ≠ "/" → gs.bucketName ≠ "" →
      gs.s3Client.getObject gs.bucketName (objectKey r.path) = Except.ok res →
      fault = some (n, e) →
      ∃ dbg : List String,
        (proxyHandler tbl env lvl fault gs r).logs = dbg ++ ["Response write error: " ++ e] ∧
        (∀ l ∈ dbg, HasPrefix l "[DEBUG] " = true) ∧
        (lvl ≠ "debug" → dbg = [])) ∧
    ((proxyHandler tbl env lvl fault gs r).response.status = 400 →
      (proxyHandler tbl env lvl fault gs r).logs = []) ∧
    (headerGet r.header "X-Forwarded-For" ≠ "" →
      clientIP r = headerGet r.header "X-Forwarded-For") ∧
    (headerGet r.header "X-Forwarded-For" = "" → clientIP r = r.remoteAddr) := by
  refine ⟨?_, ?_, ?_, ?_, ?_, ?_⟩
  · intro err h1 h2 hb hf
    have hk := objectKey_ne_empty _ h1 h2
    rw [proxyHandler_of_error _ _ _ _ _ _ err hk hb hf]
    refine ⟨_, (failureReply err).2, rfl, failureReply_tag err, ?_, ?_, ?_⟩
    · intro l hl
      simp only [List.mem_append] at hl
      rcases hl with ((hl | hl) | hl) | hl <;> exact debugLog_lines _ _ l hl
    · intro h
      simp [debugLog_of_not_debug _ _ h]
    · exact tagged_line_not_debug _ _ _ _ _ (failureReply_tag err)
  · intro res h1 h2 hb hf hfault
    have hk := objectKey_ne_empty _ h1 h2
    rw [proxyHandler_of_ok _ _ _ _ _ _ res hk hb hf]
    subst hfault
    refine ⟨_, rfl, ?_, ?_, ?_⟩
    · intro l hl
      simp only [List.mem_append] at hl
      rcases hl with hl | hl <;> exact debugLog_lines _ _ l hl
    · intro h
      simp [debugLog_of_not_debug _ _ h]
    · exact success_line_not_debug _ _ _
  · intro res n e h1 h2 hb hf hfault
    have hk := objectKey_ne_empty _ h1 h2
    rw [proxyHandler_of_ok _ _ _ _ _ _ res hk hb hf]
    subst hfault
    refine ⟨_, rfl, ?_, ?_⟩
    · intro l hl
      simp only [List.mem_append] at hl
      rcases hl with hl | hl <;> exact debugLog_lines _ _ l hl
    · intro h
      simp [debugLog_of_not_debug _ _ h]
  · intro h
    by_cases hk : objectKey r.path = ""
    · rw [proxyHandler_of_empty_key _ _ _ _ _ _ hk]
    · by_cases hb : gs.bucketName = ""
      · rw [proxyHandler_of_empty_bucket _ _ _ _ _ _ hk hb]
      · exfalso
        cases hf : gs.s3Client.getObject gs.bucketName (objectKey r.path) with
        | error err =>
          rw [proxyHandler_of_error _ _ _ _ _ _ err hk hb hf] at h
          rcases failureReply_status err with h2 | h2
          · simp only [h2] at h
            exact absurd h (by decide)
          · simp only [h2] at h
            exact absurd h (by decide)
        | ok res =>
          rw [proxyHandler_of_ok _ _ _ _ _ _ res hk hb hf] at h
          have hs : (200 : Nat) ≠ 400 := by decide
          exact absurd h hs
  · intro h
    simp [clientIP, h]
  · intro h
    simp [clientIP, h]

/-- C9, as amended, on `GET /missing.txt` sent through a forwarder for the
client `203.0.113.9`: the log is the one line with tag, client and url. -/
theorem proxyHandler_access_log_witness :
    (proxyHandler id emptyEnviron "info" none assetsServer
      { path := "/missing.txt", remoteAddr := "192.0.2.7:40000"
        header := [("X-Forwarded-For", "203.0.113.9")] }).logs =
      ["NoSuchKey - 203.0.113.9 - https://assets.s3.us-east-1.amazonaws.com/missing.txt"] := by
  obtain ⟨dbg, tag, h1, _, _, h4, _⟩ :=
    (proxyHandler_access_log id emptyEnviron "info" none assetsServer
      { path := "/missing.txt", remoteAddr := "192.0.2.7:40000"
        header := [("X-Forwarded-For", "203.0.113.9")] }).1
      { code := some "NoSuchKey", text := "NoSuchKey: The specified key does not exist." }
      (by decide) (by decide) (by decide) rfl
  rw [h4 (by decide)] at h1
  decide

/-- C9 as stated fails: `GET /` is answered with 400 and prints no line at
all, and a copy that breaks off prints `Response write error: ...`, which has
neither the client nor the url. -/
theorem proxyHandler_bad_request_prints_nothing :
    (proxyHandler id emptyEnviron "info" none assetsServer (plainRequest "/")).response.status
      = 400 ∧
    (proxyHandler id emptyEnviron "info" none assetsServer (plainRequest "/")).logs = [] ∧
    (proxyHandler id emptyEnviron "info" (some (0, "broken pipe")) assetsServer
      (plainRequest "/images/logo.png")).logs = ["Response write error: broken pipe"] := by
  refine ⟨by decide, by decide, by decide⟩

/-! ## `filepath.Ext` -/

theorem extScan_cons (c : Char) (rest suf : List Char) :
    extScan (c :: rest) suf =
      if c = '/' then [] else if c = '.' then c :: suf else extScan rest (c :: suf) := rfl

theorem extLoop_eq_extScan (cs : List Char) :
    ∀ i, i ≤ cs.length → extLoop cs i = extScan (cs.take i).reverse (cs.drop i) := by
  intro i
  induction i with
  | zero => intro _; simp [extLoop, extScan]
  | succ i ih =>
    intro hi
    have hlt : i < cs.length := hi
    have hget : cs.get? i = some cs[i] := by simp [List.getElem?_eq_getElem hlt]
    have htake : (cs.take (i + 1)).reverse = cs[i] :: (cs.take i).reverse := by
      rw [List.take_succ, List.getElem?_eq_getElem hlt]
      simp
    have hdrop : cs.drop i = cs[i] :: cs.drop (i + 1) := List.drop_eq_getElem_cons hlt
    rw [htake]
    simp only [extLoop, hget, extScan, isPathSeparator, decide_eq_true_eq]
    by_cases h1 : cs[i] = '/'
    · simp [h1]
    · by_cases h2 : cs[i] = '.'
      · simp [h1, h2, hdrop]
      · simp only [h1, h2, if_false]
        rw [ih (Nat.le_of_lt hlt), hdrop]

theorem extLoop_length (cs : List Char) : extLoop cs cs.length = extScan cs.reverse [] := by
  rw [extLoop_eq_extScan cs cs.length (Nat.le_refl _)]
  simp

theorem extScan_dot (l : List Char) (hd : '.' ∉ l) (hs : '/' ∉ l) :
    ∀ (x suf : List Char), extScan (l ++ '.' :: x) suf = '.' :: (l.reverse ++ suf) := by
  induction l with
  | nil => intro x suf; simp [extScan]
  | cons c t ih =>
    intro x suf
    have hc1 : c ≠ '/' := fun e => hs (by simp [e])
    have hc2 : c ≠ '.' := fun e => hd (by simp [e])
    have hd2 : '.' ∉ t := fun h => hd (List.mem_cons_of_mem _ h)
    have hs2 : '/' ∉ t := fun h => hs (List.mem_cons_of_mem _ h)
    rw [List.cons_append, extScan_cons, if_neg hc1, if_neg hc2, ih hd2 hs2]
    simp

theorem extScan_none (l : List Char) (hd : '.' ∉ l) (hs : '/' ∉ l) :
    ∀ (x suf : List Char), (x = [] ∨ x.head? = some '/') → extScan (l ++ x) suf = [] := by
  induction l with
  | nil =>
    intro x suf hx
    rcases hx with hx | hx
    · subst hx; simp [extScan]
    · cases x with
      | nil => simp [extScan]
      | cons c t =>
        have : c = '/' := by simpa using hx
        subst this
        simp [extScan]
  | cons c t ih =>
    intro x suf hx
    have hc1 : c ≠ '/' := fun e => hs (by simp [e])
    have hc2 : c ≠ '.' := fun e => hd (by simp [e])
    have hd2 : '.' ∉ t := fun h => hd (List.mem_cons_of_mem _ h)
    have hs2 : '/' ∉ t := fun h => hs (List.mem_cons_of_mem _ h)
    rw [List.cons_append, extScan_cons, if_neg hc1, if_neg hc2]
    exact ih hd2 hs2 x _ hx

theorem extScan_map (f : Char → Char) (hdot : ∀ c, f c = '.' ↔ c = '.')
    (hsep : ∀ c, f c = '/' ↔ c = '/') :
    ∀ (l suf : List Char), extScan (l.map f) (suf.map f) = (extScan l suf).map f := by
  intro l
  induction l with
  | nil => intro suf; simp [extScan]
  | cons c t ih =>
    intro suf
    simp only [List.map_cons, extScan, hdot, hsep]
    by_cases h1 : c = '/'
    · simp [h1]
    · by_cases h2 : c = '.'
      · subst h2
        simp [(hdot '.').2 rfl]
      · simp only [h1, h2, if_false]
        rw [← ih (c :: suf)]
        simp

theorem extScan_shape (rv : List Char) :
    ∀ suf : List Char, ∃ l x : List Char, rv = l ++ x ∧ '/' ∉ l ∧
      (x = [] ∨ x.head? = some '/') ∧
      (('.' ∉ l ∧ extScan rv suf = []) ∨
        (∃ b a : List Char, l = b ++ '.' :: a ∧ '.' ∉ b ∧
          extScan rv suf = '.' :: (b.reverse ++ suf))) := by
  induction rv with
  | nil =>
    intro suf
    exact ⟨[], [], rfl, by simp, Or.inl rfl, Or.inl ⟨by simp, rfl⟩⟩
  | cons c t ih =>
    intro suf
    by_cases h1 : c = '/'
    · subst h1
      exact ⟨[], '/' :: t, rfl, by simp, Or.inr rfl, Or.inl ⟨by simp, by simp [extScan_cons]⟩⟩
    · by_cases h2 : c = '.'
      · subst h2
        obtain ⟨l, x, hlx, hsl, hx, _⟩ := ih suf
        refine ⟨'.' :: l, x, by simp [hlx], ?_, hx, Or.inr ⟨[], l, rfl, by simp, ?_⟩⟩
        · simpa using hsl
        · simp [extScan_cons]
      · obtain ⟨l, x, hlx, hsl, hx, hcase⟩ := ih (c :: suf)
        have hsl2 : '/' ∉ c :: l := by
          simp only [List.mem_cons, not_or]
          exact ⟨fun e => h1 e.symm, hsl⟩
        refine ⟨c :: l, x, by simp [hlx], hsl2, hx, ?_⟩
        rw [extScan_cons, if_neg h1, if_neg h2]
        rcases hcase with ⟨hd, he⟩ | ⟨b, a, hl, hb, he⟩
        · left
          refine ⟨?_, he⟩
          simp only [List.mem_cons, not_or]
          exact ⟨fun e => h2 e.symm, hd⟩
        · right
          refine ⟨c :: b, a, by simp [hl], ?_, ?_⟩
          · simp only [List.mem_cons, not_or]
            exact ⟨fun e => h2 e.symm, hb⟩
          · rw [he]
            simp

theorem Ext_data (p : String) : (Ext p).data = extScan p.data.reverse [] :=
  extLoop_length p.data

theorem Ext_of_dot (p : String) (pre e : List Char) (hp : p.data = pre ++ '.' :: e)
    (hd : '.' ∉ e) (hs : '/' ∉ e) : Ext p = ⟨'.' :: e⟩ := by
  apply String.ext
  rw [Ext_data, hp]
  have h := extScan_dot e.reverse (by simpa using hd) (by simpa using hs) pre.reverse []
  simpa using h

theorem Ext_of_no_dot (p : String) (pre e : List Char) (hp : p.data = pre ++ e)
    (hpre : pre = [] ∨ pre.getLast? = some '/') (hd : '.' ∉ e) (hs : '/' ∉ e) :
    Ext p = "" := by
  apply String.ext
  rw [Ext_data, hp]
  have h := extScan_none e.reverse (by simpa using hd) (by simpa using hs) pre.reverse []
    (by simpa [List.head?_reverse] using hpre)
  simpa using h

theorem Ext_shape (p : String) :
    ∃ pre e : List Char, p.data = pre ++ e ∧ '/' ∉ e ∧
      (pre = [] ∨ pre.getLast? = some '/') ∧
      (('.' ∉ e ∧ Ext p = "") ∨
        (∃ a b : List Char, e = a ++ '.' :: b ∧ '.' ∉ b ∧ Ext p = ⟨'.' :: b⟩)) := by
  obtain ⟨l, x, hlx, hsl, hx, hcase⟩ := extScan_shape p.data.reverse []
  have hp : p.data = x.reverse ++ l.reverse := by
    have := congrArg List.reverse hlx
    simpa using this
  refine ⟨x.reverse, l.reverse, hp, by simpa using hsl, ?_, ?_⟩
  · rcases hx with hx | hx
    · left; simp [hx]
    · right; simpa [List.getLast?_reverse] using hx
  · rcases hcase with ⟨hd, he⟩ | ⟨b, a, hl, hb, he⟩
    · left
      refine ⟨by simpa using hd, ?_⟩
      apply String.ext
      rw [Ext_data, he]
    · right
      refine ⟨a.reverse, b.reverse, by simp [hl], by simpa using hb, ?_⟩
      apply String.ext
      rw [Ext_data, he]
      simp

theorem Ext_map (f : Char → Char) (hdot : ∀ c, f c = '.' ↔ c = '.')
    (hsep : ∀ c, f c = '/' ↔ c = '/') (p : String) :
    Ext ⟨p.data.map f⟩ = ⟨(Ext p).data.map f⟩ := by
  apply String.ext
  rw [Ext_data]
  show extScan (p.data.map f).reverse [] = (Ext p).data.map f
  rw [Ext_data, ← extScan_map f hdot hsep, List.map_reverse]
  rfl

/-! ## Lower-casing -/

theorem upper_cases (P : Char → Prop) (h : ∀ n, n < 26 → P (Char.ofNat (65 + n))) (c : Char)
    (hc : 'A' ≤ c ∧ c ≤ 'Z') : P c := by
  have h1 : 65 ≤ c.toNat := hc.1
  have h2 : c.toNat ≤ 90 := hc.2
  have h3 := h (c.toNat - 65) (by omega)
  have h4 : 65 + (c.toNat - 65) = c.toNat := by omega
  rw [h4, Char.ofNat_toNat] at h3
  exact h3

theorem upper_facts (c : Char) (hc : 'A' ≤ c ∧ c ≤ 'Z') :
    Char.ofNat (c.toNat + 32) ≠ '.' ∧ Char.ofNat (c.toNat + 32) ≠ '/' ∧ c ≠ '.' ∧ c ≠ '/' ∧
    c.toNat ≤ 127 ∧ (Char.ofNat (c.toNat + 32)).toNat ≤ 127 ∧
    ¬ ('A' ≤ Char.ofNat (c.toNat + 32) ∧ Char.ofNat (c.toNat + 32) ≤ 'Z') :=
  upper_cases
    (fun c => Char.ofNat (c.toNat + 32) ≠ '.' ∧ Char.ofNat (c.toNat + 32) ≠ '/' ∧ c ≠ '.' ∧
      c ≠ '/' ∧ c.toNat ≤ 127 ∧ (Char.ofNat (c.toNat + 32)).toNat ≤ 127 ∧
      ¬ ('A' ≤ Char.ofNat (c.toNat + 32) ∧ Char.ofNat (c.toNat + 32) ≤ 'Z'))
    (by decide) c hc

theorem asciiLower_eq_dot (c : Char) : asciiLower c = '.' ↔ c = '.' := by
  unfold asciiLower
  split_ifs with h
  · obtain ⟨h1, _, h3, _⟩ := upper_facts c h
    exact ⟨fun e => absurd e h1, fun e => absurd e h3⟩
  · rfl

theorem asciiLower_eq_sep (c : Char) : asciiLower c = '/' ↔ c = '/' := by
  unfold asciiLower
  split_ifs with h
  · obtain ⟨_, h2, _, h4, _⟩ := upper_facts c h
    exact ⟨fun e => absurd e h2, fun e => absurd e h4⟩
  · rfl

theorem toLowerRune_asciiLower (tbl : Char → Char) (c : Char) :
    toLowerRune tbl (asciiLower c) = toLowerRune tbl c := by
  by_cases h : 'A' ≤ c ∧ c ≤ 'Z'
  · obtain ⟨_, _, _, _, h5, h6, h7⟩ := upper_facts c h
    have ha : asciiLower c = Char.ofNat (c.toNat + 32) := by simp [asciiLower, h]
    rw [ha]
    simp only [toLowerRune, h5, h6, if_true]
    rw [ha]
    simp [asciiLower, h7]
  · have ha : asciiLower c = c := by simp [asciiLower, h]
    rw [ha]

theorem toLowerRune_eq_dot (tbl : Char → Char)
    (ht : ∀ c : Char, 127 < c.toNat → tbl c ≠ '.' ∧ tbl c ≠ '/') (c : Char) :
    toLowerRune tbl c = '.' ↔ c = '.' := by
  unfold toLowerRune
  split_ifs with h
  · exact asciiLower_eq_dot c
  · have hc : c ≠ '.' := by
      intro e
      subst e
      exact h (by decide)
    exact ⟨fun e => absurd e (ht c (by omega)).1, fun e => absurd e hc⟩

theorem toLowerRune_eq_sep (tbl : Char → Char)
    (ht : ∀ c : Char, 127 < c.toNat → tbl c ≠ '.' ∧ tbl c ≠ '/') (c : Char) :
    toLowerRune tbl c = '/' ↔ c = '/' := by
  unfold toLowerRune
  split_ifs with h
  · exact asciiLower_eq_sep c
  · have hc : c ≠ '/' := by
      intro e
      subst e
      exact h (by decide)
    exact ⟨fun e => absurd e (ht c (by omega)).2, fun e => absurd e hc⟩

theorem ToLower_Ext_asciiLower (tbl : Char → Char) (k : String) :
    ToLower tbl (Ext k) = ToLower tbl (Ext ⟨k.data.map asciiLower⟩) := by
  rw [Ext_map asciiLower asciiLower_eq_dot asciiLower_eq_sep]
  apply String.ext
  simp only [ToLower, List.map_map]
  apply List.map_congr_left
  intro c _
  exact (toLowerRune_asciiLower tbl c).symm

theorem getContentType_congr (tbl : Char → Char) (a b : String)
    (h : ToLower tbl (Ext a) = ToLower tbl (Ext b)) :
    getContentType tbl a = getContentType tbl b := by
  simp only [getContentType, h]

/-! ## Content types -/

theorem getContentType_row (tbl : Char → Char) (key e m : String)
    (hmem : (e, m) ∈ specContentTypes) (hext : ToLower tbl (Ext key) = e) :
    getContentType tbl key = m := by
  simp only [specContentTypes, List.mem_cons, List.mem_singleton, List.not_mem_nil, or_false,
    Prod.mk.injEq] at hmem
  rcases hmem with ⟨rfl, rfl⟩ | ⟨rfl, rfl⟩ | ⟨rfl, rfl⟩ | ⟨rfl, rfl⟩ | ⟨rfl, rfl⟩ | ⟨rfl, rfl⟩ | ⟨rfl, rfl⟩ | ⟨rfl, rfl⟩ | ⟨rfl, rfl⟩ | ⟨rfl, rfl⟩ | ⟨rfl, rfl⟩ | ⟨rfl, rfl⟩ | ⟨rfl, rfl⟩ | ⟨rfl, rfl⟩ <;>
    simp only [getContentType, hext] <;> decide

theorem getContentType_default (tbl : Char → Char) (key : String)
    (hno : ∀ e m : String, (e, m) ∈ specContentTypes → ToLower tbl (Ext key) ≠ e) :
    getContentType tbl key = "application/octet-stream" := by
  have h0 := hno ".html" "text/html" (by simp [specContentTypes])
  have h1 := hno ".htm" "text/html" (by simp [specContentTypes])
  have h2 := hno ".css" "text/css" (by simp [specContentTypes])
  have h3 := hno ".js" "application/javascript" (by simp [specContentTypes])
  have h4 := hno ".json" "application/json" (by simp [specContentTypes])
  have h5 := hno ".png" "image/png" (by simp [specContentTypes])
  have h6 := hno ".jpg" "image/jpeg" (by simp [specContentTypes])
  have h7 := hno ".jpeg" "image/jpeg" (by simp [specContentTypes])
  have h8 := hno ".gif" "image/gif" (by simp [specContentTypes])
  have h9 := hno ".svg" "image/svg+xml" (by simp [specContentTypes])
  have h10 := hno ".pdf" "application/pdf" (by simp [specContentTypes])
  have h11 := hno ".txt" "text/plain" (by simp [specContentTypes])
  have h12 := hno ".xml" "application/xml" (by simp [specContentTypes])
  have h13 := hno ".zip" "application/zip" (by simp [specContentTypes])
  simp [getContentType, h0, h1, h2, h3, h4, h5, h6, h7, h8, h9, h10, h11, h12, h13]

theorem ToLower_empty (tbl : Char → Char) : ToLower tbl "" = "" := rfl

/-- C5: `getContentType` is a total function of the key's extension alone.
The extension is the suffix starting at the last `.` of the final
`/`-separated element of the key (empty when that element has no `.`); when
its lower-cased form is a row of the table the result is that row's type, and
otherwise, also for an empty extension, it is `application/octet-stream`.  Keys
that differ only in the case of their letters get the same type, as
`IMAGE.PNG` and `image.png` do. -/
theorem getContentType_by_extension (tbl : Char → Char) (key : String) :
    (∀ e m : String, (e, m) ∈ specContentTypes → ToLower tbl (Ext key) = e →
      getContentType tbl key = m) ∧
    ((∀ e m : String, (e, m) ∈ specContentTypes → ToLower tbl (Ext key) ≠ e) →
      getContentType tbl key = "application/octet-stream") ∧
    (Ext key = "" → getContentType tbl key = "application/octet-stream") ∧
    (∃ pre e : List Char, key.data = pre ++ e ∧ '/' ∉ e ∧
      (pre = [] ∨ pre.getLast? = some '/') ∧
      (('.' ∉ e ∧ Ext key = "") ∨
        (∃ a b : List Char, e = a ++ '.' :: b ∧ '.' ∉ b ∧ Ext key = ⟨'.' :: b⟩))) ∧
    (∀ pre e : List Char, key.data = pre ++ '.' :: e → '.' ∉ e → '/' ∉ e →
      Ext key = ⟨'.' :: e⟩) ∧
    (∀ pre e : List Char, key.data = pre ++ e → (pre = [] ∨ pre.getLast? = some '/') →
      '.' ∉ e → '/' ∉ e → Ext key = "") ∧
    (∀ k2 : String, k2.data.map asciiLower = key.data.map asciiLower →
      getContentType tbl k2 = getContentType tbl key) ∧
    ((∀ c : Char, 127 < c.toNat → tbl c ≠ '.' ∧ tbl c ≠ '/') →
      ∀ k2 : String, ToLower tbl k2 = ToLower tbl key →
        getContentType tbl k2 = getContentType tbl key) ∧
    getContentType tbl "IMAGE.PNG" = "image/png" ∧
    getContentType tbl "image.png" = "image/png" := by
  refine ⟨fun e m => getContentType_row tbl key e m, getContentType_default tbl key, ?_,
    Ext_shape key, fun pre e => Ext_of_dot key pre e, fun pre e => Ext_of_no_dot key pre e,
    ?_, ?_, rfl, rfl⟩
  · intro h
    apply getContentType_default
    intro e m hmem
    rw [h, ToLower_empty]
    simp only [specContentTypes, List.mem_cons, List.mem_singleton, List.not_mem_nil, or_false,
      Prod.mk.injEq] at hmem
    rcases hmem with ⟨rfl, _⟩ | ⟨rfl, _⟩ | ⟨rfl, _⟩ | ⟨rfl, _⟩ | ⟨rfl, _⟩ | ⟨rfl, _⟩ | ⟨rfl, _⟩ | ⟨rfl, _⟩ | ⟨rfl, _⟩ | ⟨rfl, _⟩ | ⟨rfl, _⟩ | ⟨rfl, _⟩ | ⟨rfl, _⟩ | ⟨rfl, _⟩ <;> decide
  · intro k2 h
    apply getContentType_congr
    rw [ToLower_Ext_asciiLower tbl k2, ToLower_Ext_asciiLower tbl key, h]
  · intro ht k2 h
    apply getContentType_congr
    have hm : ∀ k : String, ToLower tbl (Ext k) = Ext (ToLower tbl k) := fun k =>
      (Ext_map (toLowerRune tbl) (toLowerRune_eq_dot tbl ht) (toLowerRune_eq_sep tbl ht) k).symm
    rw [hm k2, hm key, h]

/-- C5, on the key `docs/Report.PDF` with the identity as case table: the
lower-cased extension is `.pdf`, so the type is `application/pdf`. -/
theorem getContentType_by_extension_witness :
    getContentType id "docs/Report.PDF" = "application/pdf" :=
  (getContentType_by_extension id "docs/Report.PDF").1 ".pdf" "application/pdf"
    (by decide) (by decide)

/-- The rows of `TestGetContentType` in `main_test.go`. -/
theorem getContentType_test_table (tbl : Char → Char) :
    getContentType tbl "test.html" = "text/html" ∧
    getContentType tbl "test.css" = "text/css" ∧
    getContentType tbl "test.js" = "application/javascript" ∧
    getContentType tbl "test.json" = "application/json" ∧
    getContentType tbl "test.png" = "image/png" ∧
    getContentType tbl "test.jpg" = "image/jpeg" ∧
    getContentType tbl "test.gif" = "image/gif" ∧
    getContentType tbl "test.pdf" = "application/pdf" ∧
    getContentType tbl "test.txt" = "text/plain" ∧
    getContentType tbl "test.unknown" = "application/octet-stream" :=
  ⟨rfl, rfl, rfl, rfl, rfl, rfl, rfl, rfl, rfl, rfl⟩

/-! ## The logged address -/

theorem TrimPrefix_append (p r : String) : TrimPrefix (p ++ r) p = r := by
  apply String.ext
  simp [TrimPrefix, hasPrefix_append_self, String.data_append]

theorem TrimPrefix_of_not (s p : String) (h : HasPrefix s p = false) : TrimPrefix s p = s := by
  simp [TrimPrefix, h]

theorem eq_append_TrimPrefix (s p : String) (h : HasPrefix s p = true) :
    s = p ++ TrimPrefix s p := by
  apply String.ext
  have hp : p.data <+: s.data := List.isPrefixOf_iff_prefix.1 h
  simp only [TrimPrefix, h, if_true, String.data_append]
  exact (List.prefix_iff_eq_append.1 hp).symm

theorem https_not_http (r : String) : HasPrefix ("https://" ++ r) "http://" = false := by
  have h1 : "https://".data = ['h', 't', 't', 'p', 's', ':', '/', '/'] := rfl
  have h2 : "http://".data = ['h', 't', 't', 'p', ':', '/', '/'] := rfl
  simp [HasPrefix, String.data_append, h1, h2, List.isPrefixOf]

theorem cleanEndpoint_split (e : String) :
    ∃ p ∈ ["", "http://", "https://", "http://https://"],
      e = p ++ TrimPrefix (TrimPrefix e "http://") "https://" := by
  by_cases h1 : HasPrefix e "http://" = true
  · have e1 := eq_append_TrimPrefix e "http://" h1
    by_cases h2 : HasPrefix (TrimPrefix e "http://") "https://" = true
    · have e2 := eq_append_TrimPrefix _ "https://" h2
      refine ⟨"http://https://", by simp, ?_⟩
      have h3 : ("http://https://" : String) = "http://" ++ "https://" := by decide
      rw [h3, String.append_assoc, ← e2, ← e1]
    · refine ⟨"http://", by simp, ?_⟩
      rw [TrimPrefix_of_not _ "https://" (by simpa using h2)]
      exact e1
  · have e1 : TrimPrefix e "http://" = e := TrimPrefix_of_not _ _ (by simpa using h1)
    rw [e1]
    by_cases h2 : HasPrefix e "https://" = true
    · exact ⟨"https://", by simp, eq_append_TrimPrefix e "https://" h2⟩
    · refine ⟨"", by simp, ?_⟩
      rw [TrimPrefix_of_not _ "https://" (by simpa using h2)]
      simp

theorem cleanEndpoint_single (e p r : String) (hp : p ∈ ["", "http://", "https://"])
    (he : e = p ++ r) (h1 : HasPrefix r "http://" = false)
    (h2 : HasPrefix r "https://" = false) :
    TrimPrefix (TrimPrefix e "http://") "https://" = r := by
  simp only [List.mem_cons, List.mem_singleton, List.not_mem_nil, or_false] at hp
  rcases hp with hp | hp | hp
  · have her : e = r := by rw [he, hp]; simp
    rw [her, TrimPrefix_of_not r _ h1, TrimPrefix_of_not r _ h2]
  · rw [he, hp, TrimPrefix_append, TrimPrefix_of_not r _ h2]
  · rw [he, hp, TrimPrefix_of_not _ _ (https_not_http r), TrimPrefix_append]

theorem cleanEndpoint_both (r : String) :
    TrimPrefix (TrimPrefix ("http://https://" ++ r) "http://") "https://" = r := by
  have h3 : ("http://https://" : String) = "http://" ++ "https://" := by decide
  rw [h3, String.append_assoc, TrimPrefix_append, TrimPrefix_append]

theorem cleanEndpoint_https (r : String) :
    TrimPrefix (TrimPrefix ("https://" ++ r) "http://") "https://" = r := by
  rw [TrimPrefix_of_not _ _ (https_not_http r), TrimPrefix_append]

theorem cleanEndpoint_http (r : String) (h : HasPrefix r "https://" = false) :
    TrimPrefix (TrimPrefix ("http://" ++ r) "http://") "https://" = r := by
  rw [TrimPrefix_append, TrimPrefix_of_not r _ h]

theorem cleanEndpoint_bare (e : String) (h1 : HasPrefix e "http://" = false)
    (h2 : HasPrefix e "https://" = false) :
    TrimPrefix (TrimPrefix e "http://") "https://" = e := by
  rw [TrimPrefix_of_not e _ h1, TrimPrefix_of_not e _ h2]

theorem getEnvOrDefault_of_some (env : Environ) (k d v : String) (h : env k = some v)
    (hv : v ≠ "") : getEnvOrDefault env k d = v := by
  simp [getEnvOrDefault, Getenv, h, hv]

theorem getEnvOrDefault_of_empty (env : Environ) (k d : String) (h : Getenv env k = "") :
    getEnvOrDefault env k d = d := by
  simp [getEnvOrDefault, h]

theorem getEnvOrDefault_eq_true_iff (env : Environ) (k : String) :
    getEnvOrDefault env k "false" = "true" ↔ Getenv env k = "true" := by
  unfold getEnvOrDefault
  by_cases h : Getenv env k = ""
  · simp only [h, ne_eq, not_true_eq_false, if_false]
    constructor <;> intro h2 <;> exact absurd h2 (by decide)
  · simp [h]

/-- C8, as amended: with a custom endpoint `e` the logged address is
`{scheme}://{b}.{c}/{k}`, the scheme being `http` when `S3_DISABLE_SSL` is
`true` and `https` otherwise, and `c` being `e` after one leading `http://`
and then one leading `https://` have been taken off.  That fixes `c` for
every `e`: behind `http://https://` and behind `https://` it is the rest,
behind `http://` it is the rest when the rest does not start with `https://`,
and an `e` starting with neither prefix is kept as it is.  So `e` is `c`
behind one of the prefixes `""`, `http://`, `https://`, `http://https://`,
and when `e` is a bare address behind at most one scheme prefix, `c` is that
bare address.  Without a custom endpoint, and with `REGION` unset, the address is
`https://{b}.s3.{region}.amazonaws.com/{k}` for the region the client was
configured with.  The two scenarios of the specification are instances. -/
theorem fullS3URL_spec (env : Environ) (b k : String) :
    (∀ e : String, env "S3_ENDPOINT" = some e → e ≠ "" →
      ∃ c : String,
        fullS3URL env b k =
          (if Getenv env "S3_DISABLE_SSL" = "true" then "http" else "https") ++ "://" ++ b ++
            "." ++ c ++ "/" ++ k ∧
        c = TrimPrefix (TrimPrefix e "http://") "https://" ∧
        (∀ r : String, e = "http://https://" ++ r → c = r) ∧
        (∀ r : String, e = "https://" ++ r → c = r) ∧
        (∀ r : String, e = "http://" ++ r → HasPrefix r "https://" = false → c = r) ∧
        (HasPrefix e "http://" = false → HasPrefix e "https://" = false → c = e) ∧
        (∃ p ∈ ["", "http://", "https://", "http://https://"], e = p ++ c) ∧
        (∀ p r : String, p ∈ ["", "http://", "https://"] → e = p ++ r →
          HasPrefix r "http://" = false → HasPrefix r "https://" = false → c = r)) ∧
    (Getenv env "S3_ENDPOINT" = "" → Getenv env "REGION" = "" →
      ∀ svc : String → String → Except BackendError GetObjectOutput,
        fullS3URL env b k =
          "https://" ++ b ++ ".s3." ++ (NewGardiyanServer env svc).s3Client.config.region ++
            ".amazonaws.com/" ++ k) ∧
    fullS3URL (Setenv emptyEnviron "S3_ENDPOINT" "minio.local:9000") "files"
      (objectKey "/a/b.json") = "https://files.minio.local:9000/a/b.json" ∧
    fullS3URL emptyEnviron "assets" (objectKey "/missing.txt") =
      "https://assets.s3.us-east-1.amazonaws.com/missing.txt" := by
  refine ⟨?_, ?_, by decide, by decide⟩
  · intro e he hne
    have hend : getEnvOrDefault env "S3_ENDPOINT" "" = e :=
      getEnvOrDefault_of_some env _ _ e he hne
    refine ⟨TrimPrefix (TrimPrefix e "http://") "https://", ?_, rfl,
      fun r her => by rw [her]; exact cleanEndpoint_both r,
      fun r her => by rw [her]; exact cleanEndpoint_https r,
      fun r her hr => by rw [her]; exact cleanEndpoint_http r hr,
      cleanEndpoint_bare e, cleanEndpoint_split e,
      fun p r hp her h1 h2 => cleanEndpoint_single e p r hp her h1 h2⟩
    simp only [fullS3URL, hend, hne, ne_eq, not_false_eq_true, if_true,
      getEnvOrDefault_eq_true_iff]
  · intro hend hreg svc
    have h1 : getEnvOrDefault env "S3_ENDPOINT" "" = "" := getEnvOrDefault_of_empty env _ _ hend
    have h2 : ∀ d, getEnvOrDefault env "REGION" d = d := fun d =>
      getEnvOrDefault_of_empty env _ d hreg
    simp [fullS3URL, NewGardiyanServer, h1, h2]

/-- C8, as amended, for the stacked endpoint `http://https://minio.local:9000`
with SSL switched off: both scheme prefixes are taken off, the cleaned
endpoint is `minio.local:9000`, and the address starts `http`. -/
theorem fullS3URL_spec_witness :
    ∃ c : String,
      fullS3URL (Setenv (Setenv emptyEnviron "S3_ENDPOINT" "http://https://minio.local:9000")
        "S3_DISABLE_SSL" "true") "files" "a/b.json" =
        (if Getenv (Setenv (Setenv emptyEnviron "S3_ENDPOINT"
          "http://https://minio.local:9000") "S3_DISABLE_SSL" "true") "S3_DISABLE_SSL" = "true"
          then "http" else "https") ++ "://" ++ "files" ++ "." ++ c ++ "/" ++ "a/b.json" ∧
      c = "minio.local:9000" := by
  obtain ⟨c, h1, _, h3, _⟩ :=
    (fullS3URL_spec (Setenv (Setenv emptyEnviron "S3_ENDPOINT"
      "http://https://minio.local:9000") "S3_DISABLE_SSL" "true") "files" "a/b.json").1
      "http://https://minio.local:9000" (by decide) (by decide)
  exact ⟨c, h1, h3 "minio.local:9000" (by decide)⟩

/-- C8 as stated fails: for the endpoint `https://http://minio.local:9000`
the cleaned endpoint is `http://minio.local:9000`, which still starts with
`http://`, and the logged address is
`https://files.http://minio.local:9000/a/b.json`. -/
theorem fullS3URL_stacked_scheme :
    TrimPrefix (TrimPrefix "https://http://minio.local:9000" "http://") "https://" =
      "http://minio.local:9000" ∧
    HasPrefix "http://minio.local:9000" "http://" = true ∧
    fullS3URL (Setenv emptyEnviron "S3_ENDPOINT" "https://http://minio.local:9000") "files"
      (objectKey "/a/b.json") = "https://files.http://minio.local:9000/a/b.json" ∧
    (proxyHandler id (Setenv emptyEnviron "S3_ENDPOINT" "https://http://minio.local:9000")
      "info" none
      { s3Client := { config := assetsServer.s3Client.config
                      getObject := failingStore { code := none, text := "timeout" } }
        bucketName := "files", port := "8080" }
      (plainRequest "/a/b.json")).logs =
      ["UnknownError - 192.0.2.7:40000 - https://files.http://minio.local:9000/a/b.json"] := by
  refine ⟨by decide, by decide, by decide, by decide⟩

/-- The region in the logged address is read from `AWS_REGION` alone: with
`REGION=eu-west-1` and no endpoint the client is configured for `eu-west-1`
while the logged address names `us-east-1`. -/
theorem fullS3URL_ignores_REGION :
    (NewGardiyanServer (Setenv emptyEnviron "REGION" "eu-west-1")
      assetsStore).s3Client.config.region = "eu-west-1" ∧
    fullS3URL (Setenv emptyEnviron "REGION" "eu-west-1") "assets" "a.txt" =
      "https://assets.s3.us-east-1.amazonaws.com/a.txt" := by
  refine ⟨by decide, by decide⟩

end Gardiyan
